import Mathlib

/-!
Shallow embedding of the scoring core of `src/streamlit_app.py` (stock-rating bot).

Python floats are modelled as exact rationals.  A metric slot in the raw
metric bundle can hold the Python value `None`, the float `nan`, or a
number; the type `PyF` captures exactly these three cases.  Arithmetic on
`PyF` propagates `nan`; `PyF.none` never reaches arithmetic in the
translated code (Python would raise there), so the catch-all arms of the
operations are unreachable at every call site.

The module-level rationale strings (`exps`) are display-only and are not
modelled; no claim concerns them.  Python's `round(x, 2)` (banker's
rounding) is modelled with Mathlib's `round` (half-up); the two differ only
at exact half-cent ties, which do not occur in any statement below.
-/

/-- A Python value slot: `None`, float `nan`, or a (rational) number. -/
inductive PyF where
  | none : PyF
  | nan : PyF
  | num : ℚ → PyF
deriving DecidableEq

/-- Python truthiness of a `PyF` value: `None` and `0` are falsy; `nan`
and every nonzero number are truthy. -/
def PyF.truthy : PyF → Bool
  | PyF.none => false
  | PyF.nan => true
  | PyF.num q => decide (q ≠ 0)

/-- Python `a or b` on metric slots. -/
def pyOr (a b : PyF) : PyF := if a.truthy = true then a else b

/-- Addition; `nan` propagates.  `PyF.none` never reaches arithmetic. -/
def PyF.add : PyF → PyF → PyF
  | PyF.num a, PyF.num b => PyF.num (a + b)
  | _, _ => PyF.nan

/-- Subtraction; `nan` propagates. -/
def PyF.sub : PyF → PyF → PyF
  | PyF.num a, PyF.num b => PyF.num (a - b)
  | _, _ => PyF.nan

/-- Multiplication; `nan` propagates. -/
def PyF.mul : PyF → PyF → PyF
  | PyF.num a, PyF.num b => PyF.num (a * b)
  | _, _ => PyF.nan

/-- Division; `nan` propagates.  Every division in the translated code has
a guarded nonzero divisor, so the `a / 0` case (a Python error) is
unreachable. -/
def PyF.div : PyF → PyF → PyF
  | PyF.num a, PyF.num b => PyF.num (a / b)
  | _, _ => PyF.nan

/-- Absolute value; `nan` propagates. -/
def PyF.abs : PyF → PyF
  | PyF.num a => PyF.num |a|
  | _ => PyF.nan

instance : Add PyF := ⟨PyF.add⟩
instance : Sub PyF := ⟨PyF.sub⟩
instance : Mul PyF := ⟨PyF.mul⟩
instance : Div PyF := ⟨PyF.div⟩

@[simp] lemma PyF.num_add_num (a b : ℚ) : PyF.num a + PyF.num b = PyF.num (a + b) := rfl
@[simp] lemma PyF.num_sub_num (a b : ℚ) : PyF.num a - PyF.num b = PyF.num (a - b) := rfl
@[simp] lemma PyF.num_mul_num (a b : ℚ) : PyF.num a * PyF.num b = PyF.num (a * b) := rfl
@[simp] lemma PyF.num_div_num (a b : ℚ) : PyF.num a / PyF.num b = PyF.num (a / b) := rfl
@[simp] lemma PyF.abs_num (a : ℚ) : PyF.abs (PyF.num a) = PyF.num |a| := rfl
@[simp] lemma PyF.truthy_num (a : ℚ) : (PyF.num a).truthy = decide (a ≠ 0) := rfl
@[simp] lemma PyF.truthy_nan : PyF.nan.truthy = true := rfl
@[simp] lemma PyF.nan_add (x : PyF) : PyF.nan + x = PyF.nan := by cases x <;> rfl
@[simp] lemma PyF.add_nan (x : PyF) : x + PyF.nan = PyF.nan := by cases x <;> rfl
@[simp] lemma PyF.nan_sub (x : PyF) : PyF.nan - x = PyF.nan := by cases x <;> rfl
@[simp] lemma PyF.sub_nan (x : PyF) : x - PyF.nan = PyF.nan := by cases x <;> rfl
@[simp] lemma PyF.nan_mul (x : PyF) : PyF.nan * x = PyF.nan := by cases x <;> rfl
@[simp] lemma PyF.mul_nan (x : PyF) : x * PyF.nan = PyF.nan := by cases x <;> rfl
@[simp] lemma PyF.nan_div (x : PyF) : PyF.nan / x = PyF.nan := by cases x <;> rfl
@[simp] lemma PyF.div_nan (x : PyF) : x / PyF.nan = PyF.nan := by cases x <;> rfl
@[simp] lemma PyF.abs_nan : PyF.abs PyF.nan = PyF.nan := rfl
@[simp] lemma PyF.num_ne_none (a : ℚ) : PyF.num a ≠ PyF.none := fun h => PyF.noConfusion h
@[simp] lemma PyF.num_ne_nan (a : ℚ) : PyF.num a ≠ PyF.nan := fun h => PyF.noConfusion h
@[simp] lemma PyF.nan_ne_num (a : ℚ) : PyF.nan ≠ PyF.num a := fun h => PyF.noConfusion h
@[simp] lemma PyF.none_ne_num (a : ℚ) : PyF.none ≠ PyF.num a := fun h => PyF.noConfusion h

/-- Python `min(a, b)` on rationals. -/
def qmin (a b : ℚ) : ℚ := if a ≤ b then a else b

/-- Python `max(a, b)` on rationals. -/
def qmax (a b : ℚ) : ℚ := if a ≤ b then b else a

/-- `max(lo, min(hi, x))` with the default bounds `0`/`10`. -/
def qclamp (q : ℚ) : ℚ := qmax 0 (qmin 10 q)

/-- Source `zclip(x, lo=0.0, hi=10.0)`: `None` and `nan` map to `nan`,
numbers are clamped into `[lo, hi]`.  Every call site uses the default
bounds `0`/`10`, which are inlined here. -/
def zclip (x : PyF) : PyF :=
  match x with
  | PyF.num q => PyF.num (qclamp q)
  | _ => PyF.nan

/-- Source `np.nanmean`: mean of the non-`nan` entries; `nan` when none
remain.  (A `PyF.none` entry would be a Python `TypeError`; no call site
produces one.) -/
def nanmean (l : List PyF) : PyF :=
  let ns := l.filterMap (fun x => match x with | PyF.num q => Option.some q | _ => Option.none)
  if ns = [] then PyF.nan else PyF.num (ns.sum / (ns.length : ℚ))

/-- Source `renorm_weights(d)` on an association list (a Python dict):
`s = sum(d.values())`, each value divided by `s` when `s > 0`, else all
zero.  (The source's `if v is not None` filter is vacuous at every call
site: no weight dict ever holds `None`.) -/
def renorm_weights {α : Type} (d : List (α × ℚ)) : List (α × ℚ) :=
  d.map (fun kv => (kv.1, if (d.map Prod.snd).sum > 0 then kv.2 / (d.map Prod.snd).sum else 0))

/-- Weight resolution as performed at `score_stock` line 158: zero out the
weights of unavailable factors, then renormalize. -/
def derive_weights {α : Type} (d : List (α × ℚ)) (avail : α → Bool) : List (α × ℚ) :=
  renorm_weights (d.map (fun kv => (kv.1, if avail kv.1 = true then kv.2 else 0)))

/-- Python `str.strip()`: drop whitespace from both ends. -/
def py_strip (s : String) : String :=
  String.mk (((s.data.dropWhile Char.isWhitespace).reverse.dropWhile Char.isWhitespace).reverse)

/-- Python `str.upper()` (ASCII range, which covers every ticker form the
source handles). -/
def py_upper (s : String) : String := String.mk (s.data.map Char.toUpper)

/-- Python `s.startswith(p)`. -/
def py_startswith (s p : String) : Bool := p.data.isPrefixOf s.data

/-- Python `s.endswith(p)`. -/
def py_endswith (s p : String) : Bool := p.data.isSuffixOf s.data

/-- Python `len(s)`. -/
def py_len (s : String) : Nat := s.data.length

/-- Source `detect_country_and_type(code_raw)`. -/
def detect_country_and_type (code_raw : String) : String × String × String :=
  let s := py_upper (py_strip code_raw)
  if py_startswith s "INF" || (py_len s == 5 && py_endswith s "X") then
    ((if py_startswith s "INF" then "India" else "US"), "Mutual Fund", s)
  else if py_startswith s "NSE:" || py_startswith s "BSE:" then
    ("India", "Stock", s)
  else if py_endswith s "BEES" then
    ("India", "ETF", s)
  else
    ("US", "Stock", s)

/-- One record of `SECTOR_MEDIANS` (fields `PE`, `EVEBITDA`, `PS`, `PFCF`). -/
structure Med where
  PE : ℚ
  EVEBITDA : ℚ
  PS : ℚ
  PFCF : ℚ
deriving DecidableEq

/-- Source `SECTOR_MEDIANS[country].get(sector, SECTOR_MEDIANS[country]["Default"])`.
Only `"US"` and `"India"` are reachable as `country` (from
`detect_country_and_type`); any other key would raise `KeyError` in the
source and is mapped to the US table here. -/
def sector_medians (country : String) (sector : String) : Med :=
  if country = "India" then
    (if sector = "Technology" then ⟨30, 20, 7, 28⟩ else ⟨22, 14, 3, 22⟩)
  else
    (if sector = "Technology" then ⟨28, 19, 6, 25⟩ else ⟨18, 12, 2, 18⟩)

/-- The raw metric bundle returned by `fetch_yahoo` (`price` and
`industry` are carried but unused by the scoring path). -/
structure Metrics where
  price : PyF
  sector : Option String
  industry : Option String
  beta : PyF
  pe : PyF
  pb : PyF
  ps : PyF
  pfcf : PyF
  div_yield : PyF
  r_1y : PyF
  r_3y : PyF
deriving DecidableEq

/-- `m.get("sector") or "Default"`: a missing or empty sector string is
replaced by `"Default"`. -/
def sector_of (m : Metrics) : String :=
  match m.sector with
  | Option.none => "Default"
  | Option.some s => if s = "" then "Default" else s

/-- The sector-median record used by `score_stock` for this bundle. -/
def med_of (country : String) (m : Metrics) : Med :=
  sector_medians country (sector_of m)

/-- The eight stock factors, in the insertion order of the `STOCK_W` dict. -/
inductive Factor where
  | pe_vs_sector : Factor
  | financial_health : Factor
  | valuation : Factor
  | growth : Factor
  | management : Factor
  | moat : Factor
  | risk : Factor
  | dividend : Factor
deriving DecidableEq, Fintype

/-- The keys of `STOCK_W`, in dict insertion order. -/
def factorList : List Factor :=
  [Factor.pe_vs_sector, Factor.financial_health, Factor.valuation, Factor.growth,
   Factor.management, Factor.moat, Factor.risk, Factor.dividend]

/-- `renorm_weights` specialised to total maps over the eight stock
factors, as used for `STOCK_W` and for the per-bundle derived weights. -/
def renormF (d : Factor → ℚ) : Factor → ℚ :=
  fun k => if (factorList.map d).sum > 0 then d k / (factorList.map d).sum else 0

/-- Source `STOCK_W = renorm_weights({... each 0.125 ...})`. -/
def STOCK_W : Factor → ℚ := renormF (fun _ => 1 / 8)

/-- `scores["pe_vs_sector"]`: `zclip(5 + 5*((med["PE"]/pe)-1)) if (pe and med["PE"]) else np.nan`. -/
def pe_vs_sector_score (med : Med) (pe : PyF) : PyF :=
  if pe.truthy = true ∧ med.PE ≠ 0 then
    zclip (PyF.num 5 + PyF.num 5 * (PyF.num med.PE / pe - PyF.num 1))
  else PyF.nan

/-- `scores["financial_health"]`: `zclip(10 - abs((pb or 3)-3)*2) if pb else np.nan`. -/
def financial_health_score (pb : PyF) : PyF :=
  if pb.truthy = true then
    zclip (PyF.num 10 - PyF.abs (pyOr pb (PyF.num 3) - PyF.num 3) * PyF.num 2)
  else PyF.nan

/-- The `comp` list of unclamped valuation sub-ratios (PE, PS, PFCF order). -/
def valuation_comps (med : Med) (pe ps pfcf : PyF) : List PyF :=
  (if pe.truthy = true ∧ med.PE ≠ 0 then
      [PyF.num 5 + PyF.num 5 * (PyF.num med.PE / pe - PyF.num 1)] else [])
  ++ (if ps.truthy = true ∧ med.PS ≠ 0 then
      [PyF.num 5 + PyF.num 5 * (PyF.num med.PS / ps - PyF.num 1)] else [])
  ++ (if pfcf.truthy = true ∧ med.PFCF ≠ 0 then
      [PyF.num 5 + PyF.num 5 * (PyF.num med.PFCF / pfcf - PyF.num 1)] else [])

/-- `scores["valuation"] = zclip(np.nanmean(comp) if comp else np.nan)`. -/
def valuation_score (med : Med) (pe ps pfcf : PyF) : PyF :=
  zclip (if valuation_comps med pe ps pfcf = [] then PyF.nan
         else nanmean (valuation_comps med pe ps pfcf))

/-- `scores["growth"] = zclip(5 + np.nanmean([(r1 or 0)*10, (r3 or 0)*5]))`. -/
def growth_score (r1 r3 : PyF) : PyF :=
  zclip (PyF.num 5 + nanmean [pyOr r1 (PyF.num 0) * PyF.num 10, pyOr r3 (PyF.num 0) * PyF.num 5])

/-- `beta = m.get("beta") or 1.0; scores["risk"] = zclip(10 - abs(beta-1)*5)`. -/
def risk_score (beta : PyF) : PyF :=
  zclip (PyF.num 10 - PyF.abs (pyOr beta (PyF.num 1) - PyF.num 1) * PyF.num 5)

/-- `scores["dividend"] = zclip((y*100/0.6) if y not in (None, np.nan) else np.nan)`.
A `nan` yield either takes the `else` branch (object identity with the
`np.nan` singleton) or propagates through the arithmetic; both give `nan`,
so a single `None` test suffices.  `0.6` is the exact rational `6/10`. -/
def dividend_score (y : PyF) : PyF :=
  zclip (if y = PyF.none then PyF.nan else y * PyF.num 100 / PyF.num (6 / 10))

/-- The `scores` dict built by `score_stock`. -/
def stock_scores (country : String) (m : Metrics) : Factor → PyF :=
  fun k =>
    match k with
    | Factor.pe_vs_sector => pe_vs_sector_score (med_of country m) m.pe
    | Factor.financial_health => financial_health_score m.pb
    | Factor.valuation => valuation_score (med_of country m) m.pe m.ps m.pfcf
    | Factor.growth => growth_score m.r_1y m.r_3y
    | Factor.management => PyF.num 6
    | Factor.moat => PyF.num 6
    | Factor.risk => risk_score m.beta
    | Factor.dividend => dividend_score m.div_yield

/-- `not np.isnan(scores[k])` on a sub-score (sub-scores are never
`PyF.none`, see `stock_scores_range`). -/
def isDefined : PyF → Bool
  | PyF.num _ => true
  | _ => false

/-- Numeric payload of a defined sub-score (only applied where
`isDefined` holds in the translated code). -/
def toQ : PyF → ℚ
  | PyF.num q => q
  | _ => 0

/-- The dict comprehension of line 158:
`{k: (STOCK_W[k] if not np.isnan(scores[k]) else 0) for k in STOCK_W}`. -/
def masked_w (sc : Factor → PyF) : Factor → ℚ :=
  fun k => if isDefined (sc k) = true then STOCK_W k else 0

/-- Line 158: `w = renorm_weights(...)` applied to the masked weights. -/
def derived_weightsF (sc : Factor → PyF) : Factor → ℚ :=
  renormF (masked_w sc)

/-- Line 159: `overall = sum(w[k]*scores[k] for k in STOCK_W if not np.isnan(scores[k]))`. -/
def overall_of (country : String) (m : Metrics) : ℚ :=
  ((factorList.filter (fun k => isDefined (stock_scores country m k))).map
    (fun k => derived_weightsF (stock_scores country m) k * toQ (stock_scores country m k))).sum

/-- Python `round(x, 2)` (ties modelled half-up, see the header comment). -/
def round2 (x : ℚ) : ℚ := ((round (100 * x) : ℤ) : ℚ) / 100

/-- Source `score_stock(country, tkr, m)`: the rounded overall score, the
sub-score dict and the resolved sector (rationale strings omitted). -/
def score_stock (country : String) (m : Metrics) : ℚ × (Factor → PyF) × String :=
  (round2 (overall_of country m), stock_scores country m, sector_of m)

/-- Source `reco(overall, buy_thr=8.0, hold_thr=6.0)`. -/
def reco (overall buy_thr hold_thr : ℚ) : String :=
  if overall ≥ buy_thr then "Buy" else (if overall ≥ hold_thr then "Hold" else "Sell/Avoid")

/-! ### General helper lemmas -/

lemma qmin_le_left (a b : ℚ) : qmin a b ≤ a := by
  unfold qmin
  split_ifs with h
  · exact le_refl a
  · exact le_of_not_le h

lemma qclamp_nonneg (q : ℚ) : 0 ≤ qclamp q := by
  unfold qclamp qmax
  split_ifs with h
  · exact h
  · exact le_refl 0

lemma qclamp_le_ten (q : ℚ) : qclamp q ≤ 10 := by
  have h10 : qmin 10 q ≤ 10 := qmin_le_left 10 q
  unfold qclamp qmax
  split_ifs with h
  · exact h10
  · norm_num

/-- `zclip` output shape: `nan` or a number already clamped into `[0, 10]`. -/
lemma zclip_range (x : PyF) :
    zclip x = PyF.nan ∨ ∃ q, zclip x = PyF.num q ∧ 0 ≤ q ∧ q ≤ 10 := by
  cases x with
  | none => left; rfl
  | nan => left; rfl
  | num q => right; exact ⟨qclamp q, rfl, qclamp_nonneg q, qclamp_le_ten q⟩

/-- A helper transporting `zclip_range` along an equation. -/
lemma range_of_eq_zclip {y : PyF} (x : PyF) (h : y = zclip x) :
    y = PyF.nan ∨ ∃ q, y = PyF.num q ∧ 0 ≤ q ∧ q ≤ 10 := by
  rw [h]; exact zclip_range x

/-- Every stock sub-score is `nan` or a number in `[0, 10]` (`PyF.none`
never occurs as a sub-score). -/
lemma stock_scores_range (c : String) (m : Metrics) (k : Factor) :
    stock_scores c m k = PyF.nan
      ∨ ∃ q, stock_scores c m k = PyF.num q ∧ 0 ≤ q ∧ q ≤ 10 := by
  cases k with
  | pe_vs_sector =>
      have h : stock_scores c m Factor.pe_vs_sector
          = pe_vs_sector_score (med_of c m) m.pe := rfl
      rw [h]
      unfold pe_vs_sector_score
      split_ifs
      · exact zclip_range _
      · left; rfl
  | financial_health =>
      have h : stock_scores c m Factor.financial_health
          = financial_health_score m.pb := rfl
      rw [h]
      unfold financial_health_score
      split_ifs
      · exact zclip_range _
      · left; rfl
  | valuation => exact range_of_eq_zclip _ rfl
  | growth => exact range_of_eq_zclip _ rfl
  | management => right; exact ⟨6, rfl, by norm_num, by norm_num⟩
  | moat => right; exact ⟨6, rfl, by norm_num, by norm_num⟩
  | risk => exact range_of_eq_zclip _ rfl
  | dividend => exact range_of_eq_zclip _ rfl

lemma stock_scores_management (c : String) (m : Metrics) :
    stock_scores c m Factor.management = PyF.num 6 := rfl

lemma stock_scores_moat (c : String) (m : Metrics) :
    stock_scores c m Factor.moat = PyF.num 6 := rfl

/-- A defined sub-score's payload is in `[0, 10]`. -/
lemma toQ_range (c : String) (m : Metrics) (k : Factor)
    (h : isDefined (stock_scores c m k) = true) :
    0 ≤ toQ (stock_scores c m k) ∧ toQ (stock_scores c m k) ≤ 10 := by
  rcases stock_scores_range c m k with hn | ⟨q, hq, h0, h1⟩
  · rw [hn] at h; simp [isDefined] at h
  · rw [hq]; exact ⟨h0, h1⟩

lemma sum_map_ite_filter {α : Type} (l : List α) (P : α → Bool) (c : ℚ) :
    (l.map (fun k => if P k = true then c else 0)).sum = ((l.filter P).length : ℚ) * c := by
  induction l with
  | nil => simp
  | cons a t ih =>
      by_cases h : P a = true
      · simp [h, ih, List.filter_cons, add_mul]
        ring
      · simp [h, ih, List.filter_cons]

lemma sum_map_div {α : Type} (l : List α) (f : α → ℚ) (c : ℚ) :
    (l.map (fun k => f k / c)).sum = (l.map f).sum / c := by
  induction l with
  | nil => simp
  | cons a t ih => simp [ih, add_div]

lemma sum_map_mul_const {α : Type} (l : List α) (f : α → ℚ) (c : ℚ) :
    (l.map (fun k => c * f k)).sum = c * (l.map f).sum := by
  induction l with
  | nil => simp
  | cons a t ih => simp [ih, mul_add]

lemma STOCK_W_eq (k : Factor) : STOCK_W k = 1 / 8 := by
  unfold STOCK_W renormF
  norm_num [factorList]

/-- The factors whose sub-score is defined, in `STOCK_W` order. -/
def definedList (sc : Factor → PyF) : List Factor :=
  factorList.filter (fun k => isDefined (sc k))

lemma masked_w_sum (sc : Factor → PyF) :
    (factorList.map (masked_w sc)).sum = ((definedList sc).length : ℚ) * (1 / 8) := by
  have h : masked_w sc = fun k => if isDefined (sc k) = true then (1 / 8 : ℚ) else 0 := by
    funext k
    unfold masked_w
    rw [STOCK_W_eq]
  rw [h, sum_map_ite_filter]
  rfl

lemma management_mem_definedList (c : String) (m : Metrics) :
    Factor.management ∈ definedList (stock_scores c m) := by
  apply List.mem_filter.mpr
  constructor
  · simp [factorList]
  · rw [stock_scores_management]
    rfl

lemma definedList_length_pos (c : String) (m : Metrics) :
    0 < (definedList (stock_scores c m)).length :=
  List.length_pos.mpr (List.ne_nil_of_mem (management_mem_definedList c m))

lemma masked_w_sum_pos (c : String) (m : Metrics) :
    0 < (factorList.map (masked_w (stock_scores c m))).sum := by
  rw [masked_w_sum]
  have h := definedList_length_pos c m
  positivity

/-- The derived-weight map sums to `1` on every bundle (management and
moat are always available, so the masked sum is positive). -/
lemma derived_weightsF_sum (c : String) (m : Metrics) :
    (factorList.map (derived_weightsF (stock_scores c m))).sum = 1 := by
  have hpos := masked_w_sum_pos c m
  have h : factorList.map (derived_weightsF (stock_scores c m))
      = factorList.map (fun k =>
          masked_w (stock_scores c m) k / (factorList.map (masked_w (stock_scores c m))).sum) := by
    apply List.map_congr_left
    intro k _
    unfold derived_weightsF renormF
    rw [if_pos hpos]
  rw [h, sum_map_div, div_self (ne_of_gt hpos)]

/-- The overall score is the plain average of the defined sub-scores
(equal nominal weights). -/
lemma overall_of_eq_mean (c : String) (m : Metrics) :
    overall_of c m
      = ((definedList (stock_scores c m)).map (fun k => toQ (stock_scores c m k))).sum
          / ((definedList (stock_scores c m)).length : ℚ) := by
  have hpos := masked_w_sum_pos c m
  have hlen := definedList_length_pos c m
  have hlenQ : ((definedList (stock_scores c m)).length : ℚ) ≠ 0 := by
    exact_mod_cast Nat.pos_iff_ne_zero.mp hlen
  have hS : (factorList.map (masked_w (stock_scores c m))).sum
      = ((definedList (stock_scores c m)).length : ℚ) * (1 / 8) := masked_w_sum _
  have h : (definedList (stock_scores c m)).map
        (fun k => derived_weightsF (stock_scores c m) k * toQ (stock_scores c m k))
      = (definedList (stock_scores c m)).map
        (fun k => (((definedList (stock_scores c m)).length : ℚ))⁻¹ * toQ (stock_scores c m k)) := by
    apply List.map_congr_left
    intro k hk
    have hdef : isDefined (stock_scores c m k) = true := by
      have := (List.mem_filter.mp hk).2
      simpa using this
    have hw : derived_weightsF (stock_scores c m) k
        = (((definedList (stock_scores c m)).length : ℚ))⁻¹ := by
      unfold derived_weightsF renormF
      rw [if_pos hpos, hS]
      unfold masked_w
      rw [if_pos hdef, STOCK_W_eq]
      field_simp
    rw [hw]
  unfold overall_of
  show ((definedList (stock_scores c m)).map
        (fun k => derived_weightsF (stock_scores c m) k * toQ (stock_scores c m k))).sum = _
  rw [h, sum_map_mul_const, inv_mul_eq_div]

lemma round2_bounds {x : ℚ} (h0 : 0 ≤ x) (h10 : x ≤ 10) :
    0 ≤ round2 x ∧ round2 x ≤ 10 := by
  unfold round2
  have hl : (0 : ℤ) ≤ round (100 * x) := by
    rw [round_eq]
    have : (0 : ℤ) = ⌊(1 : ℚ) / 2⌋ := by norm_num
    rw [this]
    apply Int.floor_le_floor
    linarith
  have hu : round (100 * x) ≤ 1000 := by
    rw [round_eq]
    have : (1000 : ℤ) = ⌊(2001 : ℚ) / 2⌋ := by norm_num
    rw [this]
    apply Int.floor_le_floor
    linarith
  constructor
  · positivity
  · rw [div_le_iff₀ (by norm_num : (0:ℚ) < 100)]
    calc ((round (100 * x) : ℤ) : ℚ) ≤ (1000 : ℚ) := by exact_mod_cast hu
    _ = 10 * 100 := by norm_num

/-- The rounded overall stock score always lies in `[0, 10]`. -/
lemma score_stock_overall_bounds (c : String) (m : Metrics) :
    0 ≤ (score_stock c m).1 ∧ (score_stock c m).1 ≤ 10 := by
  have hlen := definedList_length_pos c m
  have hlenQ : (0:ℚ) < ((definedList (stock_scores c m)).length : ℚ) := by exact_mod_cast hlen
  have hT0 : 0 ≤ ((definedList (stock_scores c m)).map (fun k => toQ (stock_scores c m k))).sum := by
    apply List.sum_nonneg
    intro x hx
    rcases List.mem_map.mp hx with ⟨k, hk, rfl⟩
    have hdef : isDefined (stock_scores c m k) = true := by
      have := (List.mem_filter.mp hk).2
      simpa using this
    exact (toQ_range c m k hdef).1
  have hT10 : ((definedList (stock_scores c m)).map (fun k => toQ (stock_scores c m k))).sum
      ≤ ((definedList (stock_scores c m)).length : ℚ) * 10 := by
    have h := List.sum_le_card_nsmul
      ((definedList (stock_scores c m)).map (fun k => toQ (stock_scores c m k))) 10 ?_
    · simpa [nsmul_eq_mul] using h
    · intro x hx
      rcases List.mem_map.mp hx with ⟨k, hk, rfl⟩
      have hdef : isDefined (stock_scores c m k) = true := by
        have := (List.mem_filter.mp hk).2
        simpa using this
      exact (toQ_range c m k hdef).2
  have hover : 0 ≤ overall_of c m ∧ overall_of c m ≤ 10 := by
    rw [overall_of_eq_mean]
    constructor
    · positivity
    · rw [div_le_iff₀ hlenQ]
      linarith
  exact round2_bounds hover.1 hover.2

/-- When every factor except management and moat is undefined, the
defined-factor list reduces to exactly `[management, moat]`. -/
lemma definedList_sparse (c : String) (m : Metrics)
    (h : ∀ k : Factor, k ≠ Factor.management → k ≠ Factor.moat →
      isDefined (stock_scores c m k) = false) :
    definedList (stock_scores c m) = [Factor.management, Factor.moat] := by
  have h1 := h Factor.pe_vs_sector (by simp) (by simp)
  have h2 := h Factor.financial_health (by simp) (by simp)
  have h3 := h Factor.valuation (by simp) (by simp)
  have h4 := h Factor.growth (by simp) (by simp)
  have h5 := h Factor.risk (by simp) (by simp)
  have h6 := h Factor.dividend (by simp) (by simp)
  have hm : isDefined (stock_scores c m Factor.management) = true := by
    rw [stock_scores_management]; rfl
  have hmo : isDefined (stock_scores c m Factor.moat) = true := by
    rw [stock_scores_moat]; rfl
  unfold definedList factorList
  simp [List.filter, h1, h2, h3, h4, h5, h6, hm, hmo]

/-- In the sparse case the overall score is exactly `6`. -/
lemma overall_sparse (c : String) (m : Metrics)
    (h : ∀ k : Factor, k ≠ Factor.management → k ≠ Factor.moat →
      isDefined (stock_scores c m k) = false) :
    (score_stock c m).1 = 6 := by
  have hmean := overall_of_eq_mean c m
  rw [definedList_sparse c m h] at hmean
  have hov : overall_of c m = 6 := by
    rw [hmean]
    simp [stock_scores_management, stock_scores_moat, toQ]
  show round2 (overall_of c m) = 6
  rw [hov]
  unfold round2
  rw [round_eq]
  norm_num

/-! ### Claim C1: end-to-end example -/

/-- The concrete raw metric bundle of the end-to-end example: US market,
P/E 18, P/B 3, beta 1, dividend yield 0.02, 1-year return 0.10, 3-year
return 0.30, price/sales and price/free-cash-flow absent, sector absent
(hence the US `"Default"` median bucket with PE 18). -/
def c1_metrics : Metrics :=
  { price := PyF.num 100, sector := Option.none, industry := Option.none,
    beta := PyF.num 1, pe := PyF.num 18, pb := PyF.num 3,
    ps := PyF.none, pfcf := PyF.none, div_yield := PyF.num (1 / 50),
    r_1y := PyF.num (1 / 10), r_3y := PyF.num (3 / 10) }

lemma med_of_us_c1 : med_of "US" c1_metrics = ⟨18, 12, 2, 18⟩ := by
  have h1 : ("US" : String) ≠ "India" := by decide
  have h2 : ("Default" : String) ≠ "Technology" := by decide
  simp [med_of, sector_of, sector_medians, c1_metrics, h1, h2]

lemma c1_pe_vs_sector : stock_scores "US" c1_metrics Factor.pe_vs_sector = PyF.num 5 := by
  have h : stock_scores "US" c1_metrics Factor.pe_vs_sector
      = pe_vs_sector_score (med_of "US" c1_metrics) c1_metrics.pe := rfl
  rw [h, med_of_us_c1]
  norm_num [pe_vs_sector_score, c1_metrics, PyF.truthy, zclip, qclamp, qmin, qmax]

lemma c1_financial_health :
    stock_scores "US" c1_metrics Factor.financial_health = PyF.num 10 := by
  have h : stock_scores "US" c1_metrics Factor.financial_health
      = financial_health_score c1_metrics.pb := rfl
  rw [h]
  norm_num [financial_health_score, c1_metrics, PyF.truthy, pyOr, zclip, qclamp, qmin, qmax]

lemma c1_valuation : stock_scores "US" c1_metrics Factor.valuation = PyF.num 5 := by
  have h : stock_scores "US" c1_metrics Factor.valuation
      = valuation_score (med_of "US" c1_metrics) c1_metrics.pe c1_metrics.ps c1_metrics.pfcf := rfl
  rw [h, med_of_us_c1]
  norm_num [valuation_score, valuation_comps, c1_metrics, PyF.truthy, nanmean,
    List.filterMap, zclip, qclamp, qmin, qmax]

lemma c1_growth : stock_scores "US" c1_metrics Factor.growth = PyF.num (25 / 4) := by
  have h : stock_scores "US" c1_metrics Factor.growth
      = growth_score c1_metrics.r_1y c1_metrics.r_3y := rfl
  rw [h]
  norm_num [growth_score, c1_metrics, PyF.truthy, pyOr, nanmean, List.filterMap,
    zclip, qclamp, qmin, qmax]
  norm_num [List.cons_ne_nil, zclip, qclamp, qmin, qmax]

lemma c1_risk : stock_scores "US" c1_metrics Factor.risk = PyF.num 10 := by
  have h : stock_scores "US" c1_metrics Factor.risk = risk_score c1_metrics.beta := rfl
  rw [h]
  norm_num [risk_score, c1_metrics, PyF.truthy, pyOr, zclip, qclamp, qmin, qmax]

lemma c1_dividend : stock_scores "US" c1_metrics Factor.dividend = PyF.num (10 / 3) := by
  have h : stock_scores "US" c1_metrics Factor.dividend
      = dividend_score c1_metrics.div_yield := rfl
  rw [h]
  norm_num [dividend_score, c1_metrics, zclip, qclamp, qmin, qmax]

lemma c1_weights :
    factorList.map (derived_weightsF (stock_scores "US" c1_metrics))
      = [1/8, 1/8, 1/8, 1/8, 1/8, 1/8, 1/8, 1/8] := by
  have hmask : factorList.map (masked_w (stock_scores "US" c1_metrics))
      = [1/8, 1/8, 1/8, 1/8, 1/8, 1/8, 1/8, 1/8] := by
    simp [factorList, masked_w, c1_pe_vs_sector, c1_financial_health, c1_valuation,
      c1_growth, stock_scores_management, stock_scores_moat, c1_risk, c1_dividend,
      isDefined, STOCK_W_eq]
  have hsum : (factorList.map (masked_w (stock_scores "US" c1_metrics))).sum = 1 := by
    rw [hmask]; norm_num
  unfold derived_weightsF renormF
  rw [hsum]
  simp [factorList, masked_w, c1_pe_vs_sector, c1_financial_health, c1_valuation,
    c1_growth, stock_scores_management, stock_scores_moat, c1_risk, c1_dividend,
    isDefined, STOCK_W_eq]

lemma c1_overall : overall_of "US" c1_metrics = 619 / 96 := by
  rw [overall_of_eq_mean]
  have hdl : definedList (stock_scores "US" c1_metrics) = factorList := by
    unfold definedList factorList
    simp [List.filter, c1_pe_vs_sector, c1_financial_health, c1_valuation, c1_growth,
      stock_scores_management, stock_scores_moat, c1_risk, c1_dividend, isDefined]
  rw [hdl]
  simp [factorList, c1_pe_vs_sector, c1_financial_health, c1_valuation, c1_growth,
    stock_scores_management, stock_scores_moat, c1_risk, c1_dividend, toQ]
  norm_num

lemma c1_rounded : (score_stock "US" c1_metrics).1 = 129 / 20 := by
  show round2 (overall_of "US" c1_metrics) = 129 / 20
  rw [c1_overall]
  unfold round2
  rw [round_eq]
  norm_num

/-- Claim C1: for the concrete bundle market=US, pe=18 with the US Default
sector median (PE=18), beta=1.0, dividend yield=0.02, 1-year return=0.10,
3-year return=0.30, price/book=3.0, price/sales and price/free-cash-flow
absent, the scoring engine produces sub-scores pe_vs_sector=5.0,
financial_health=10.0, risk=10.0, dividend=10/3 (the clamped 0.02*100/0.6,
approximately 3.33), growth=6.25, management=6.0, moat=6.0, valuation=5.0;
all eight factors are defined so every derived weight is 0.125, the
overall score is 619/96, approximately 6.45 (and exactly 6.45 after the
source's 2-decimal rounding), and the classifier maps it to Hold under the
default thresholds buy=8.0, hold=6.0. -/
theorem C1_end_to_end_example :
    stock_scores "US" c1_metrics Factor.pe_vs_sector = PyF.num 5
    ∧ stock_scores "US" c1_metrics Factor.financial_health = PyF.num 10
    ∧ stock_scores "US" c1_metrics Factor.risk = PyF.num 10
    ∧ stock_scores "US" c1_metrics Factor.dividend = PyF.num (10 / 3)
    ∧ |(10 / 3 : ℚ) - 333 / 100| < 1 / 100
    ∧ stock_scores "US" c1_metrics Factor.growth = PyF.num (25 / 4)
    ∧ stock_scores "US" c1_metrics Factor.management = PyF.num 6
    ∧ stock_scores "US" c1_metrics Factor.moat = PyF.num 6
    ∧ stock_scores "US" c1_metrics Factor.valuation = PyF.num 5
    ∧ factorList.map (derived_weightsF (stock_scores "US" c1_metrics))
        = [1/8, 1/8, 1/8, 1/8, 1/8, 1/8, 1/8, 1/8]
    ∧ overall_of "US" c1_metrics = 619 / 96
    ∧ |(619 / 96 : ℚ) - 129 / 20| < 1 / 100
    ∧ (score_stock "US" c1_metrics).1 = 129 / 20
    ∧ reco (score_stock "US" c1_metrics).1 8 6 = "Hold" := by
  refine ⟨c1_pe_vs_sector, c1_financial_health, c1_risk, c1_dividend, by norm_num [abs_lt],
    c1_growth, stock_scores_management _ _, stock_scores_moat _ _, c1_valuation,
    c1_weights, c1_overall, by norm_num [abs_lt], c1_rounded, ?_⟩
  rw [c1_rounded]
  norm_num [reco]

/-! ### Claim C10: the overall score is always defined and in bounds -/

/-- Claim C10: for every raw metric bundle, however sparse, the stock
path's overall score is a genuine number in `[0, 10]`: management and moat
are the constant `6.0`, so the set of available factors is never empty,
the derived weights sum to exactly `1`, and when every other factor is
undefined the overall score is exactly `6`. -/
theorem C10_overall_always_defined (c : String) (m : Metrics) :
    (0 ≤ (score_stock c m).1 ∧ (score_stock c m).1 ≤ 10)
    ∧ stock_scores c m Factor.management = PyF.num 6
    ∧ stock_scores c m Factor.moat = PyF.num 6
    ∧ (factorList.map (derived_weightsF (stock_scores c m))).sum = 1
    ∧ ((∀ k : Factor, k ≠ Factor.management → k ≠ Factor.moat →
          isDefined (stock_scores c m k) = false) → (score_stock c m).1 = 6) :=
  ⟨score_stock_overall_bounds c m, stock_scores_management c m, stock_scores_moat c m,
    derived_weightsF_sum c m, overall_sparse c m⟩

/-- The fully sparse bundle: no metric available at all (returns and beta
as `nan`, exactly as `fetch_yahoo` produces them; ratio fields `None`). -/
def sparse_metrics : Metrics :=
  { price := PyF.nan, sector := Option.none, industry := Option.none,
    beta := PyF.nan, pe := PyF.none, pb := PyF.none,
    ps := PyF.none, pfcf := PyF.none, div_yield := PyF.none,
    r_1y := PyF.nan, r_3y := PyF.nan }

/-- Witness for C10: on the fully sparse bundle only management and moat
are defined and the returned overall score is exactly `6`. -/
theorem C10_overall_always_defined_witness :
    (score_stock "US" sparse_metrics).1 = 6 :=
  (C10_overall_always_defined "US" sparse_metrics).2.2.2.2 (by
    intro k hk1 hk2
    cases k with
    | management => exact absurd rfl hk1
    | moat => exact absurd rfl hk2
    | pe_vs_sector =>
        simp [stock_scores, pe_vs_sector_score, sparse_metrics, PyF.truthy, isDefined]
    | financial_health =>
        simp [stock_scores, financial_health_score, sparse_metrics, PyF.truthy, isDefined]
    | valuation =>
        simp [stock_scores, valuation_score, valuation_comps, sparse_metrics,
          PyF.truthy, zclip, isDefined]
    | growth =>
        simp [stock_scores, growth_score, sparse_metrics, PyF.truthy, pyOr, nanmean,
          List.filterMap, zclip, isDefined]
    | risk =>
        simp [stock_scores, risk_score, sparse_metrics, PyF.truthy, pyOr, zclip, isDefined]
    | dividend =>
        simp [stock_scores, dividend_score, sparse_metrics, zclip, isDefined])

/-! ### Claim C7: every sub-score is undefined or in `[0, 10]` -/

/-- Claim C7: for every factor and every raw metric bundle, however
extreme the inputs, the sub-score is either undefined (`nan`) or lies in
the closed interval `[0, 10]`. -/
theorem C7_scores_clamped (c : String) (m : Metrics) (k : Factor) :
    stock_scores c m k = PyF.nan
      ∨ ∃ q, stock_scores c m k = PyF.num q ∧ 0 ≤ q ∧ q ≤ 10 :=
  stock_scores_range c m k

/-! ### Claim C8: recommendation classifier -/

/-- Claim C8: the classifier returns Buy when `overall >= buy_thr`,
otherwise Hold when `overall >= hold_thr`, otherwise Sell/Avoid; in
particular `reco 8 8 6 = Buy`, `reco 7.99 8 6 = Hold` and
`reco 5.99 8 6 = Sell/Avoid`. -/
theorem C8_classifier_boundaries (overall buy_thr hold_thr : ℚ) :
    (overall ≥ buy_thr → reco overall buy_thr hold_thr = "Buy")
    ∧ (¬ overall ≥ buy_thr → overall ≥ hold_thr → reco overall buy_thr hold_thr = "Hold")
    ∧ (¬ overall ≥ buy_thr → ¬ overall ≥ hold_thr →
        reco overall buy_thr hold_thr = "Sell/Avoid")
    ∧ reco 8 8 6 = "Buy"
    ∧ reco (799 / 100) 8 6 = "Hold"
    ∧ reco (599 / 100) 8 6 = "Sell/Avoid" := by
  refine ⟨?_, ?_, ?_, ?_, ?_, ?_⟩
  · intro h
    simp [reco, h]
  · intro h1 h2
    simp [reco, h1, h2]
  · intro h1 h2
    simp [reco, h1, h2]
  · norm_num [reco]
  · norm_num [reco]
  · norm_num [reco]

/-- Witness for C8: applying the classifier theorem at 9 with thresholds
8/6 yields Buy. -/
theorem C8_classifier_boundaries_witness : reco 9 8 6 = "Buy" :=
  (C8_classifier_boundaries 9 8 6).1 (by norm_num)

/-! ### Claim C2: weight renormalization -/

/-- Claim C2: for every nonnegative nominal weight map and every subset of
available factors, the derived weights sum to exactly `1` when some
available factor has positive nominal weight, and are all `0` when the
masked sum is zero (e.g. when nothing is available). -/
theorem C2_weight_renormalization {α : Type} (d : List (α × ℚ)) (avail : α → Bool)
    (hnn : ∀ kv ∈ d, 0 ≤ kv.2) :
    ((∃ kv ∈ d, avail kv.1 = true ∧ 0 < kv.2) →
      ((derive_weights d avail).map Prod.snd).sum = 1)
    ∧ ((d.map (fun kv => if avail kv.1 = true then kv.2 else 0)).sum = 0 →
      ∀ kv ∈ derive_weights d avail, kv.2 = 0) := by
  have hmasked : ((d.map (fun kv => (kv.1, if avail kv.1 = true then kv.2 else 0))).map
        Prod.snd)
      = d.map (fun kv => if avail kv.1 = true then kv.2 else 0) := by
    rw [List.map_map]
    rfl
  constructor
  · rintro ⟨kv0, hmem, havail, hpos⟩
    have hspos : 0 < ((d.map (fun kv => (kv.1, if avail kv.1 = true then kv.2 else 0))).map
        Prod.snd).sum := by
      rw [hmasked]
      have hin : kv0.2 ∈ d.map (fun kv => if avail kv.1 = true then kv.2 else 0) := by
        apply List.mem_map.mpr
        exact ⟨kv0, hmem, by rw [if_pos havail]⟩
      have hle : kv0.2 ≤ (d.map (fun kv => if avail kv.1 = true then kv.2 else 0)).sum := by
        apply List.single_le_sum _ _ hin
        intro x hx
        rcases List.mem_map.mp hx with ⟨kv, hkv, rfl⟩
        by_cases hav : avail kv.1 = true
        · rw [if_pos hav]; exact hnn kv hkv
        · rw [if_neg hav]
      linarith
    unfold derive_weights renorm_weights
    rw [List.map_map]
    have hfun : (Prod.snd ∘ fun kv : α × ℚ =>
          (kv.1, if ((d.map (fun kv => (kv.1, if avail kv.1 = true then kv.2 else 0))).map
              Prod.snd).sum > 0 then
            kv.2 / ((d.map (fun kv => (kv.1, if avail kv.1 = true then kv.2 else 0))).map
              Prod.snd).sum else 0))
        = fun kv : α × ℚ =>
            kv.2 / ((d.map (fun kv => (kv.1, if avail kv.1 = true then kv.2 else 0))).map
              Prod.snd).sum := by
      funext kv
      simp only [Function.comp]
      rw [if_pos hspos]
    rw [hfun, sum_map_div, div_self (ne_of_gt hspos)]
  · intro hz kv hkv
    unfold derive_weights renorm_weights at hkv
    rcases List.mem_map.mp hkv with ⟨kv1, _, rfl⟩
    have hsz : ((d.map (fun kv => (kv.1, if avail kv.1 = true then kv.2 else 0))).map
        Prod.snd).sum = 0 := by
      rw [hmasked]; exact hz
    rw [hsz]
    norm_num

/-- Witness for C2: two equal weights with only the first available
renormalize to weights summing to exactly 1. -/
theorem C2_weight_renormalization_witness :
    ((derive_weights [(("a" : String), (1 : ℚ)), ("b", 1)]
        (fun k => k == "a")).map Prod.snd).sum = 1 :=
  (C2_weight_renormalization [(("a" : String), (1 : ℚ)), ("b", 1)] (fun k => k == "a")
      (by
        intro kv hkv
        rcases List.mem_cons.mp hkv with rfl | hkv
        · norm_num
        · rcases List.mem_cons.mp hkv with rfl | hkv
          · norm_num
          · simp at hkv)).1
    ⟨("a", 1), by simp, by simp, by norm_num⟩

/-! ### Claim C3: valuation clamps the mean, not each sub-ratio -/

/-- Modelled from the claim's wording, for comparison only: the valuation
aggregate as the arithmetic mean of the CLAMPED sub-ratio scores. -/
def valuation_claim_model (med : Med) (pe ps pfcf : PyF) : PyF :=
  let comps :=
    (if pe.truthy = true ∧ med.PE ≠ 0 then
        [zclip (PyF.num 5 + PyF.num 5 * (PyF.num med.PE / pe - PyF.num 1))] else [])
    ++ (if ps.truthy = true ∧ med.PS ≠ 0 then
        [zclip (PyF.num 5 + PyF.num 5 * (PyF.num med.PS / ps - PyF.num 1))] else [])
    ++ (if pfcf.truthy = true ∧ med.PFCF ≠ 0 then
        [zclip (PyF.num 5 + PyF.num 5 * (PyF.num med.PFCF / pfcf - PyF.num 1))] else [])
  if comps = [] then PyF.nan else nanmean comps

/-- A deeply discounted P/E (1 vs median 18) next to an exactly-median P/S:
the code averages the raw sub-ratios (90 and 5) and clamps the mean. -/
def c3_metrics : Metrics :=
  { price := PyF.num 100, sector := Option.none, industry := Option.none,
    beta := PyF.none, pe := PyF.num 1, pb := PyF.none,
    ps := PyF.num 2, pfcf := PyF.none, div_yield := PyF.none,
    r_1y := PyF.nan, r_3y := PyF.nan }

lemma med_of_us_nosector (m : Metrics) (h : m.sector = Option.none) :
    med_of "US" m = ⟨18, 12, 2, 18⟩ := by
  have h1 : ("US" : String) ≠ "India" := by decide
  have h2 : ("Default" : String) ≠ "Technology" := by decide
  simp [med_of, sector_of, sector_medians, h, h1, h2]

/-- Counterexample to C3 as stated: the code's valuation for `c3_metrics`
is `10` (clamp of the mean `47.5` of the unclamped sub-ratios `90` and
`5`), while the claimed mean-of-clamped-sub-ratios is `7.5`. -/
theorem C3_counterexample :
    stock_scores "US" c3_metrics Factor.valuation = PyF.num 10
    ∧ valuation_claim_model (med_of "US" c3_metrics) c3_metrics.pe c3_metrics.ps
        c3_metrics.pfcf = PyF.num (15 / 2)
    ∧ PyF.num (10 : ℚ) ≠ PyF.num (15 / 2) := by
  refine ⟨?_, ?_, by simp; norm_num⟩
  · have h : stock_scores "US" c3_metrics Factor.valuation
        = valuation_score (med_of "US" c3_metrics) c3_metrics.pe c3_metrics.ps
            c3_metrics.pfcf := rfl
    rw [h, med_of_us_nosector c3_metrics rfl]
    norm_num [valuation_score, valuation_comps, c3_metrics, PyF.truthy, nanmean,
      List.filterMap, zclip, qclamp, qmin, qmax]
    norm_num [List.cons_ne_nil, qclamp, qmin, qmax]
  · rw [med_of_us_nosector c3_metrics rfl]
    norm_num [valuation_claim_model, c3_metrics, PyF.truthy, nanmean,
      List.filterMap, zclip, qclamp, qmin, qmax]
    norm_num [List.cons_ne_nil, qclamp, qmin, qmax]

lemma sector_medians_fields_pos (c s : String) :
    0 < (sector_medians c s).PE ∧ 0 < (sector_medians c s).PS
      ∧ 0 < (sector_medians c s).PFCF := by
  unfold sector_medians
  split_ifs <;> exact ⟨by norm_num, by norm_num, by norm_num⟩

/-- The unclamped values of the AVAILABLE valuation sub-ratios, in the
claim's sense: one entry `5 + 5*((median/actual) - 1)` for each of the
three ratios whose slot holds a nonzero number (against a nonzero
median); `None`, `nan` and zero slots contribute nothing. -/
def available_ratio_values (med : Med) (pe ps pfcf : PyF) : List ℚ :=
  (match pe with
   | PyF.num a => if a ≠ 0 ∧ med.PE ≠ 0 then [5 + 5 * (med.PE / a - 1)] else []
   | _ => [])
  ++ (match ps with
   | PyF.num b => if b ≠ 0 ∧ med.PS ≠ 0 then [5 + 5 * (med.PS / b - 1)] else []
   | _ => [])
  ++ (match pfcf with
   | PyF.num e => if e ≠ 0 ∧ med.PFCF ≠ 0 then [5 + 5 * (med.PFCF / e - 1)] else []
   | _ => [])

/-- One segment of `comp`: extracting the numeric entries of the guarded
singleton yields exactly that slot's available-ratio values (a `nan` slot
passes the truthiness guard but its `nan` entry carries no number). -/
lemma ratio_seg_filterMap (x : PyF) (M : ℚ) :
    (if x.truthy = true ∧ M ≠ 0 then
        [PyF.num 5 + PyF.num 5 * (PyF.num M / x - PyF.num 1)] else []).filterMap
        (fun y => match y with | PyF.num q => Option.some q | _ => Option.none)
      = (match x with
         | PyF.num a => if a ≠ 0 ∧ M ≠ 0 then [5 + 5 * (M / a - 1)] else []
         | _ => []) := by
  cases x with
  | none => simp [PyF.truthy]
  | nan =>
      by_cases hM : M ≠ 0
      · rw [if_pos ⟨rfl, hM⟩]
        simp [List.filterMap]
      · rw [if_neg (fun hc => hM hc.2)]
        simp
  | num a =>
      by_cases ha : a = 0
      · subst ha
        simp [PyF.truthy]
      · by_cases hM : M ≠ 0
        · rw [if_pos ⟨by simp [ha], hM⟩]
          simp [List.filterMap, ha, hM]
        · rw [if_neg (fun hc => hM hc.2)]
          simp [ha, hM]

/-- The numeric entries of the source's `comp` list are exactly the
available-ratio values. -/
lemma valuation_comps_filterMap (med : Med) (pe ps pfcf : PyF) :
    (valuation_comps med pe ps pfcf).filterMap
        (fun y => match y with | PyF.num q => Option.some q | _ => Option.none)
      = available_ratio_values med pe ps pfcf := by
  unfold valuation_comps available_ratio_values
  rw [List.filterMap_append, List.filterMap_append,
    ratio_seg_filterMap, ratio_seg_filterMap, ratio_seg_filterMap]

/-- `valuation_score` in terms of the available sub-ratios: clamp of their
mean when any is available, undefined otherwise. -/
lemma valuation_score_eq_available (med : Med) (pe ps pfcf : PyF) :
    valuation_score med pe ps pfcf
      = if available_ratio_values med pe ps pfcf = [] then PyF.nan
        else PyF.num (qclamp ((available_ratio_values med pe ps pfcf).sum
            / ((available_ratio_values med pe ps pfcf).length : ℚ))) := by
  have hfm := valuation_comps_filterMap med pe ps pfcf
  unfold valuation_score
  by_cases hl : available_ratio_values med pe ps pfcf = []
  · rw [if_pos hl]
    by_cases hc : valuation_comps med pe ps pfcf = []
    · rw [if_pos hc]
      rfl
    · rw [if_neg hc]
      simp only [nanmean]
      rw [hfm, if_pos hl]
      rfl
  · rw [if_neg hl]
    have hc : valuation_comps med pe ps pfcf ≠ [] := by
      intro hc
      apply hl
      rw [← hfm, hc]
      rfl
    rw [if_neg hc]
    simp only [nanmean]
    rw [hfm, if_neg hl]
    rfl

/-- Claim C3 (amended): each valuation sub-ratio is computed UNclamped as
`5 + 5*((median/actual) - 1)`; for every bundle the aggregate valuation
factor is the clamp into `[0, 10]` of the arithmetic mean of whichever
sub-ratios are available (one, two or three — the clamp is applied after
the mean, never to an individual sub-ratio), and the factor is undefined
exactly when no ratio is available (every slot `None`, `nan`, or zero). -/
theorem C3_valuation_mean_then_clamp (c : String) (m : Metrics) :
    stock_scores c m Factor.valuation
      = if available_ratio_values (med_of c m) m.pe m.ps m.pfcf = [] then PyF.nan
        else PyF.num (qclamp ((available_ratio_values (med_of c m) m.pe m.ps m.pfcf).sum
            / ((available_ratio_values (med_of c m) m.pe m.ps m.pfcf).length : ℚ))) :=
  valuation_score_eq_available (med_of c m) m.pe m.ps m.pfcf

/-- Witness for C3 (amended): on the two-available bundle (P/E 1, P/S 2,
P/FCF missing) the theorem evaluates to the clamp of the mean of the two
available sub-ratios, `clamp((90 + 5)/2) = 10`. -/
theorem C3_valuation_mean_then_clamp_witness :
    stock_scores "US" c3_metrics Factor.valuation = PyF.num 10 := by
  have h := C3_valuation_mean_then_clamp "US" c3_metrics
  rw [h, med_of_us_nosector c3_metrics rfl]
  norm_num [available_ratio_values, c3_metrics, List.cons_ne_nil, qclamp, qmin, qmax]

/-! ### Claim C4: growth under missing returns -/

lemma pyOr_num_zero (q : ℚ) : pyOr (PyF.num q) (PyF.num 0) = PyF.num q := by
  unfold pyOr
  by_cases h : q = 0
  · subst h
    simp [PyF.truthy]
  · simp [PyF.truthy, h]

/-- Modelled from the claim's wording, for comparison only: each missing
return substituted with `0`, both terms always averaged. -/
def growth_claim_model (r1 r3 : PyF) : ℚ :=
  qclamp (5 + (toQ r1 * 10 + toQ r3 * 5) / 2)

/-- Bundle with the 1-year return missing as `nan` (exactly how
`fetch_yahoo` leaves it when less than a year of history exists) and a
3-year return of 0.30. -/
def c4_metrics : Metrics :=
  { price := PyF.num 100, sector := Option.none, industry := Option.none,
    beta := PyF.none, pe := PyF.none, pb := PyF.none,
    ps := PyF.none, pfcf := PyF.none, div_yield := PyF.none,
    r_1y := PyF.nan, r_3y := PyF.num (3 / 10) }

/-- Counterexample to C4 as stated: with the 1-year return missing (`nan`)
and a 3-year return of 0.30, the code's growth score is
`5 + nanmean([nan, 1.5]) = 6.5` — the `nan` term is dropped from the mean
entirely — while the claimed average-against-a-0-term would give
`5 + (0 + 1.5)/2 = 5.75`. -/
theorem C4_counterexample :
    stock_scores "US" c4_metrics Factor.growth = PyF.num (13 / 2)
    ∧ growth_claim_model c4_metrics.r_1y c4_metrics.r_3y = 23 / 4
    ∧ (13 / 2 : ℚ) ≠ 23 / 4 := by
  refine ⟨?_, ?_, by norm_num⟩
  · have h : stock_scores "US" c4_metrics Factor.growth
        = growth_score c4_metrics.r_1y c4_metrics.r_3y := rfl
    rw [h]
    norm_num [growth_score, c4_metrics, PyF.truthy, pyOr, nanmean, List.filterMap,
      zclip, qclamp, qmin, qmax]
    try norm_num [List.cons_ne_nil, qclamp, qmin, qmax]
  · norm_num [growth_claim_model, c4_metrics, toQ, qclamp, qmin, qmax]

lemma pyOr_nan (b : PyF) : pyOr PyF.nan b = PyF.nan := by
  simp [pyOr, PyF.truthy]

lemma pyOr_none (b : PyF) : pyOr PyF.none b = b := by
  simp [pyOr, PyF.truthy]

/-- Claim C4 (amended): growth is `clamp(5 + nanmean([(r1 or 0)*10,
(r3 or 0)*5]))`.  A return that is `None` is substituted with `0` and
averaged; a return that is `nan` has its term dropped from the mean
entirely, so with one `nan` return growth is `clamp(5 + other_term)` (not
halved against a 0), with both returns `nan` growth is undefined, and with
both returns `None` growth is exactly `5`. -/
theorem C4_growth_missing_returns (c : String) (m : Metrics) :
    (∀ q : ℚ, m.r_1y = PyF.nan → m.r_3y = PyF.num q →
        stock_scores c m Factor.growth = PyF.num (qclamp (5 + q * 5)))
    ∧ (∀ q : ℚ, m.r_1y = PyF.num q → m.r_3y = PyF.nan →
        stock_scores c m Factor.growth = PyF.num (qclamp (5 + q * 10)))
    ∧ (m.r_1y = PyF.none → m.r_3y = PyF.none →
        stock_scores c m Factor.growth = PyF.num 5)
    ∧ (m.r_1y = PyF.nan → m.r_3y = PyF.nan →
        stock_scores c m Factor.growth = PyF.nan)
    ∧ (∀ q1 q3 : ℚ, m.r_1y = PyF.num q1 → m.r_3y = PyF.num q3 →
        stock_scores c m Factor.growth
          = PyF.num (qclamp (5 + (q1 * 10 + q3 * 5) / 2))) := by
  have hshow : stock_scores c m Factor.growth = growth_score m.r_1y m.r_3y := rfl
  refine ⟨?_, ?_, ?_, ?_, ?_⟩
  · intro q h1 h3
    rw [hshow, h1, h3, growth_score, pyOr_nan, pyOr_num_zero]
    simp [nanmean, List.filterMap, zclip]
  · intro q h1 h3
    rw [hshow, h1, h3, growth_score, pyOr_nan, pyOr_num_zero]
    simp [nanmean, List.filterMap, zclip]
  · intro h1 h3
    rw [hshow, h1, h3, growth_score, pyOr_none]
    simp [nanmean, List.filterMap, zclip, List.cons_ne_nil]
    try norm_num [qclamp, qmin, qmax]
  · intro h1 h3
    rw [hshow, h1, h3, growth_score, pyOr_nan]
    simp [nanmean, List.filterMap, zclip]
  · intro q1 q3 h1 h3
    rw [hshow, h1, h3, growth_score, pyOr_num_zero, pyOr_num_zero]
    simp [nanmean, List.filterMap, zclip, List.cons_ne_nil]

/-- Bundle for the C4 witness: both returns present (0.10 and 0.30). -/
def c4w_metrics : Metrics :=
  { price := PyF.num 100, sector := Option.none, industry := Option.none,
    beta := PyF.none, pe := PyF.none, pb := PyF.none,
    ps := PyF.none, pfcf := PyF.none, div_yield := PyF.none,
    r_1y := PyF.num (1 / 10), r_3y := PyF.num (3 / 10) }

/-- Witness for C4 (amended): with both returns present (0.10 and 0.30)
growth is `clamp(5 + (1 + 1.5)/2) = 6.25`. -/
theorem C4_growth_missing_returns_witness :
    stock_scores "US" c4w_metrics Factor.growth = PyF.num (25 / 4) := by
  have h := (C4_growth_missing_returns "US" c4w_metrics).2.2.2.2 (1 / 10) (3 / 10) rfl rfl
  rw [h]
  norm_num [qclamp, qmin, qmax]

/-! ### Claim C5: zero dividend yield vs missing yield -/

/-- Bundle with a dividend yield of exactly `0`. -/
def c5_metrics : Metrics :=
  { price := PyF.num 100, sector := Option.none, industry := Option.none,
    beta := PyF.none, pe := PyF.none, pb := PyF.none,
    ps := PyF.none, pfcf := PyF.none, div_yield := PyF.num 0,
    r_1y := PyF.nan, r_3y := PyF.nan }

/-- The same bundle with the dividend yield missing (`None`). -/
def c5_missing_metrics : Metrics :=
  { price := PyF.num 100, sector := Option.none, industry := Option.none,
    beta := PyF.none, pe := PyF.none, pb := PyF.none,
    ps := PyF.none, pfcf := PyF.none, div_yield := PyF.none,
    r_1y := PyF.nan, r_3y := PyF.nan }

/-- Counterexample to C5 as stated: a yield of exactly `0` passes the
`y not in (None, np.nan)` test, so the code returns the DEFINED sub-score
`0.0`, which differs from the undefined (`nan`) sub-score of a missing
yield. -/
theorem C5_counterexample :
    stock_scores "US" c5_metrics Factor.dividend = PyF.num 0
    ∧ stock_scores "US" c5_missing_metrics Factor.dividend = PyF.nan
    ∧ PyF.num 0 ≠ PyF.nan := by
  refine ⟨?_, ?_, by simp⟩
  · have h : stock_scores "US" c5_metrics Factor.dividend
        = dividend_score c5_metrics.div_yield := rfl
    rw [h]
    norm_num [dividend_score, c5_metrics, zclip, qclamp, qmin, qmax]
  · have h : stock_scores "US" c5_missing_metrics Factor.dividend
        = dividend_score c5_missing_metrics.div_yield := rfl
    rw [h]
    simp [dividend_score, c5_missing_metrics, zclip]

/-- Claim C5 (amended): the dividend sub-score is `clamp(yield*100/0.6)`
whenever the yield is a number — including exactly `0`, which produces the
DEFINED sub-score `0.0` — and is undefined only when the yield is missing
(`None`, or `nan`).  Zero-dividend and data-unavailable are therefore
distinguishable at the scoring function; they coincide only upstream,
where the fetcher reports a no-dividend instrument as `None`. -/
theorem C5_dividend_zero_defined (c : String) (m : Metrics) :
    (m.div_yield = PyF.none → stock_scores c m Factor.dividend = PyF.nan)
    ∧ (m.div_yield = PyF.nan → stock_scores c m Factor.dividend = PyF.nan)
    ∧ (∀ q : ℚ, m.div_yield = PyF.num q →
        stock_scores c m Factor.dividend = PyF.num (qclamp (q * 100 / (6 / 10)))) := by
  have hshow : stock_scores c m Factor.dividend = dividend_score m.div_yield := rfl
  refine ⟨?_, ?_, ?_⟩
  · intro h
    rw [hshow, h]
    simp [dividend_score, zclip]
  · intro h
    rw [hshow, h]
    simp [dividend_score, zclip]
  · intro q h
    rw [hshow, h]
    simp [dividend_score, zclip]

/-- Bundle for the C5 witness: dividend yield 0.02. -/
def c5w_metrics : Metrics :=
  { price := PyF.num 100, sector := Option.none, industry := Option.none,
    beta := PyF.none, pe := PyF.none, pb := PyF.none,
    ps := PyF.none, pfcf := PyF.none, div_yield := PyF.num (1 / 50),
    r_1y := PyF.nan, r_3y := PyF.nan }

/-- Witness for C5 (amended): a numeric yield of 0.02 gives the defined
sub-score `10/3`. -/
theorem C5_dividend_zero_defined_witness :
    stock_scores "US" c5w_metrics Factor.dividend = PyF.num (10 / 3) := by
  have h := (C5_dividend_zero_defined "US" c5w_metrics).2.2 (1 / 50) rfl
  rw [h]
  norm_num [qclamp, qmin, qmax]

/-! ### Claim C9: risk and the beta default -/

/-- Bundle with beta present and exactly `0`. -/
def c9_metrics : Metrics :=
  { price := PyF.num 100, sector := Option.none, industry := Option.none,
    beta := PyF.num 0, pe := PyF.none, pb := PyF.none,
    ps := PyF.none, pfcf := PyF.none, div_yield := PyF.none,
    r_1y := PyF.nan, r_3y := PyF.nan }

/-- Counterexample to C9 as stated: with beta present and equal to `0`
(not missing), the claimed formula `clamp(10 - |0-1|*5)` gives `5`, but
the code's `m.get("beta") or 1.0` treats the falsy `0` as missing and
returns a risk score of `10`. -/
theorem C9_counterexample :
    stock_scores "US" c9_metrics Factor.risk = PyF.num 10
    ∧ qclamp (10 - |(0 : ℚ) - 1| * 5) = 5
    ∧ (10 : ℚ) ≠ 5 := by
  refine ⟨?_, by norm_num [qclamp, qmin, qmax], by norm_num⟩
  have h : stock_scores "US" c9_metrics Factor.risk = risk_score c9_metrics.beta := rfl
  rw [h]
  norm_num [risk_score, c9_metrics, pyOr, PyF.truthy, zclip, qclamp, qmin, qmax]

/-- Claim C9 (amended): risk is `clamp(10 - |beta - 1|*5)` where beta
defaults to `1.0` whenever the beta slot is falsy — missing (`None`) OR
present but exactly `0` — giving a defined risk score of `10`; a `nan`
beta propagates and leaves the risk score undefined. -/
theorem C9_risk_beta_default (c : String) (m : Metrics) :
    ((m.beta = PyF.none ∨ m.beta = PyF.num 0) →
        stock_scores c m Factor.risk = PyF.num 10)
    ∧ (m.beta = PyF.nan → stock_scores c m Factor.risk = PyF.nan)
    ∧ (∀ q : ℚ, q ≠ 0 → m.beta = PyF.num q →
        stock_scores c m Factor.risk = PyF.num (qclamp (10 - |q - 1| * 5))) := by
  have hshow : stock_scores c m Factor.risk = risk_score m.beta := rfl
  refine ⟨?_, ?_, ?_⟩
  · rintro (h | h)
    · rw [hshow, h]
      norm_num [risk_score, pyOr, PyF.truthy, zclip, qclamp, qmin, qmax]
    · rw [hshow, h]
      norm_num [risk_score, pyOr, PyF.truthy, zclip, qclamp, qmin, qmax]
  · intro h
    rw [hshow, h, risk_score, pyOr_nan]
    simp [zclip]
  · intro q hq h
    rw [hshow, h]
    simp [risk_score, pyOr, PyF.truthy, hq, zclip]

/-- Bundle for the C9 witness: beta present and equal to `2`. -/
def c9w_metrics : Metrics :=
  { price := PyF.num 100, sector := Option.none, industry := Option.none,
    beta := PyF.num 2, pe := PyF.none, pb := PyF.none,
    ps := PyF.none, pfcf := PyF.none, div_yield := PyF.none,
    r_1y := PyF.nan, r_3y := PyF.nan }

/-- Witness for C9 (amended): beta 2 gives risk `clamp(10 - 5) = 5`. -/
theorem C9_risk_beta_default_witness :
    stock_scores "US" c9w_metrics Factor.risk = PyF.num 5 := by
  have h := (C9_risk_beta_default "US" c9w_metrics).2.2 2 (by norm_num) rfl
  rw [h]
  rw [show |(2 : ℚ) - 1| = 1 by norm_num]
  norm_num [qclamp, qmin, qmax]

/-! ### Claim C6: instrument identity detection -/

/-- Counterexample to C6 as stated: `"NSE:NIFTYBEES"` ends in `BEES`
(after trimming and uppercasing) yet is detected as an India STOCK, not an
India ETF, because the `NSE:` prefix branch fires first. -/
theorem C6_counterexample :
    py_endswith (py_upper (py_strip "NSE:NIFTYBEES")) "BEES" = true
    ∧ detect_country_and_type "NSE:NIFTYBEES" = ("India", "Stock", "NSE:NIFTYBEES")
    ∧ ("Stock" : String) ≠ "ETF" := by
  refine ⟨by decide, by decide, by decide⟩

/-- Claim C6 (amended): detection is by ORDERED pattern matching on the
trimmed, uppercased code: first, codes starting `INF` are India Mutual
Fund and other 5-letter codes ending in `X` are US Mutual Fund; otherwise
an `NSE:`/`BSE:` prefix gives India Stock; otherwise a `BEES` suffix gives
India ETF; otherwise US Stock.  A `BEES`-suffixed code is an India ETF
only when no earlier branch fires (e.g. `NSE:NIFTYBEES` is India Stock). -/
theorem C6_detection_ordered (code : String) (s : String)
    (hs : s = py_upper (py_strip code)) :
    (py_startswith s "INF" = true →
        detect_country_and_type code = ("India", "Mutual Fund", s))
    ∧ (py_startswith s "INF" = false → py_len s = 5 → py_endswith s "X" = true →
        detect_country_and_type code = ("US", "Mutual Fund", s))
    ∧ ((py_startswith s "INF" || (py_len s == 5 && py_endswith s "X")) = false →
        (py_startswith s "NSE:" || py_startswith s "BSE:") = true →
        detect_country_and_type code = ("India", "Stock", s))
    ∧ ((py_startswith s "INF" || (py_len s == 5 && py_endswith s "X")) = false →
        (py_startswith s "NSE:" || py_startswith s "BSE:") = false →
        py_endswith s "BEES" = true →
        detect_country_and_type code = ("India", "ETF", s))
    ∧ ((py_startswith s "INF" || (py_len s == 5 && py_endswith s "X")) = false →
        (py_startswith s "NSE:" || py_startswith s "BSE:") = false →
        py_endswith s "BEES" = false →
        detect_country_and_type code = ("US", "Stock", s)) := by
  subst hs
  unfold detect_country_and_type
  refine ⟨?_, ?_, ?_, ?_, ?_⟩
  · intro h1
    simp [h1]
  · intro h1 h2 h3
    simp [h1, h2, h3]
  · intro h1 h2
    simp [h1, h2]
  · intro h1 h2 h3
    simp [h1, h2, h3]
  · intro h1 h2 h3
    simp [h1, h2, h3]

/-- Witness for C6 (amended): `"niftybees"` (no earlier branch applies,
`BEES` suffix after uppercasing) is detected as an India ETF. -/
theorem C6_detection_ordered_witness :
    detect_country_and_type "niftybees" = ("India", "ETF", "NIFTYBEES") :=
  (C6_detection_ordered "niftybees" "NIFTYBEES" (by decide)).2.2.2.1
    (by decide) (by decide) (by decide)
